import Mathlib

/-!
Verification of the data-cleaning pipeline in `src/data_cleaning.py`.

The program is a pandas-based script.  We embed its table model and the four
cleaning stages shallowly:

* A pandas `DataFrame` becomes a `Table`: an ordered list of columns (each a
  name together with its dtype) and an ordered list of rows, each row a list
  of cell values aligned positionally with the column list.
* Cell values are `text` (Python strings), `num` (numeric; pandas floats are
  modelled by `ℚ` since the program only ever compares them with `0`), or
  `missing` (NaN / NA).
* Column dtypes: `obj` (pandas `object`, the dtype `read_csv` gives text
  columns), `str` (pandas `string`, produced by `.astype("string")`), and
  `num` (any numeric dtype).  `select_dtypes(include=["object"])` selects
  exactly the `obj` columns.
* Functions that `raise` become `Except String` with the raised message.
-/

set_option autoImplicit false

namespace DataCleaning

/-- Pandas column dtypes relevant to the script: `object`, `string`
(the extension dtype produced by `.astype("string")`), and numeric. -/
inductive DType where
  | obj : DType
  | str : DType
  | num : DType
deriving DecidableEq

/-- A cell value: Python string, numeric, or missing (NaN / NA). -/
inductive Value where
  | text : String → Value
  | num : ℚ → Value
  | missing : Value
deriving DecidableEq

/-- A column: its label and its dtype. -/
structure Col where
  name : String
  dtype : DType
deriving DecidableEq

/-- A pandas DataFrame: ordered columns and ordered rows; each row's cells
are aligned positionally with the column list. -/
structure Table where
  cols : List Col
  rows : List (List Value)
deriving DecidableEq

/-- The characters stripped by Python's `str.strip()` (ASCII whitespace,
i.e. `string.whitespace`). -/
def isPyWs (c : Char) : Bool :=
  c == ' ' || c == '\t' || c == '\n' || c == '\r' || c == '\x0b' || c == '\x0c'

/-- Python `str.strip()` on the character list: drop leading and trailing
whitespace. -/
def pyStripChars (l : List Char) : List Char :=
  ((l.dropWhile isPyWs).reverse.dropWhile isPyWs).reverse

/-- Python `str.strip()`. -/
def pyStrip (s : String) : String :=
  String.mk (pyStripChars s.data)

/-- Python `str.lower()` (the column names in play are ASCII; `Char.toLower`
lowercases exactly the ASCII letters). -/
def pyLower (s : String) : String :=
  String.mk (s.data.map Char.toLower)

/-- One character under `str.replace(" ", "_")`. -/
def replChar (c : Char) : Char :=
  if c = ' ' then '_' else c

/-- Python `str.replace(" ", "_")`: every space character becomes an
underscore. -/
def pyReplaceSpace (s : String) : String :=
  String.mk (s.data.map replChar)

/-- The per-character action of `lower().replace(" ", "_")`, used to state
lemmas about `normalizeName`. -/
def normChar (c : Char) : Char :=
  replChar (Char.toLower c)

/-- The column-name transformation `col.strip().lower().replace(" ", "_")`
applied by `clean_column_names`. -/
def normalizeName (s : String) : String :=
  pyReplaceSpace (pyLower (pyStrip s))

/-- `clean_column_names`: copy the frame and rewrite every column label with
`strip().lower().replace(" ", "_")`; row data untouched, no deduplication. -/
def clean_column_names (t : Table) : Table :=
  { cols := t.cols.map (fun c => { c with name := normalizeName c.name }),
    rows := t.rows }

/-- The value transformation of `.astype("string").str.strip()` on the cells
of an `object` column.  Strings are stripped and NA stays NA.  (A numeric
value inside an `object` column would be stringified by `astype("string")`;
tables produced by `read_csv` never put numerics in `object` columns, and no
theorem below relies on the `num` case.) -/
def stripVal : Value → Value
  | .text s => .text (pyStrip s)
  | .missing => .missing
  | .num q => .num q

/-- `strip_whitespace_from_strings`: for every `object`-dtype column, strip
each cell (`df[col] = df[col].astype("string").str.strip()`, which also turns
the column's dtype into `string`); other columns pass through. -/
def strip_whitespace_from_strings (t : Table) : Table :=
  { cols := t.cols.map (fun c => if c.dtype = DType.obj then { c with dtype := DType.str } else c),
    rows := t.rows.map (fun r =>
      List.zipWith (fun v c => if c.dtype = DType.obj then stripVal v else v) r t.cols) }

/-- `col in df.columns`. -/
def hasCol (cols : List Col) (nm : String) : Bool :=
  cols.any (fun c => c.name == nm)

/-- `df[nm]` applied to one row: the cell under the (first) column labelled
`nm`. -/
def getVal (cols : List Col) (r : List Value) (nm : String) : Value :=
  match List.findIdx? (fun c => c.name == nm) cols with
  | some i => r.getD i Value.missing
  | none => Value.missing

/-- The message of the `KeyError` raised by both filters when a required
column is absent. -/
def missingColMsg (c : String) : String :=
  "Expected column " ++ "'" ++ c ++ "'" ++ " not found in DataFrame. " ++
    "Check the raw CSV headers and the column cleaning step."

/-- A cell is non-missing (`dropna` keeps the row iff every subset cell is). -/
def notNA : Value → Bool
  | .missing => false
  | _ => true

/-- `handle_missing_values`: require the `price` and `quantity` columns
(raising `KeyError` for the first absent one, `price` checked first), then
`dropna(subset=["price", "quantity"])`: keep exactly the rows where both
cells are non-missing. -/
def handle_missing_values (t : Table) : Except String Table :=
  if hasCol t.cols "price" = false then .error (missingColMsg "price")
  else if hasCol t.cols "quantity" = false then .error (missingColMsg "quantity")
  else .ok { t with rows := t.rows.filter (fun r =>
    notNA (getVal t.cols r "price") && notNA (getVal t.cols r "quantity")) }

/-- The pandas comparison `cell >= 0` for a cell of a numeric or object
column: numbers compare, `NaN >= 0` is `False`.  A Python string compared
with `0` raises `TypeError`; `remove_invalid_rows` below models that raise
separately, so the `text` clause here is never reached on its inputs. -/
def valGE0 : Value → Bool
  | .num q => decide (0 ≤ q)
  | .missing => false
  | .text _ => false

/-- Whether some cell of column `nm` is a Python string: elementwise
comparison of such a column with `0` raises `TypeError`. -/
def colHasText (t : Table) (nm : String) : Bool :=
  t.rows.any (fun r => match getVal t.cols r nm with
    | .text _ => true
    | _ => false)

/-- The message of the `TypeError` pandas raises when a string cell is
compared with `0`. -/
def typeErrorMsg : String :=
  "TypeError: comparison not supported between str and int"

/-- `remove_invalid_rows`: require the `price` and `quantity` columns
(identical `KeyError` contract), then
`df[(df["price"] >= 0) & (df["quantity"] >= 0)]`: the elementwise comparison
raises `TypeError` if either column holds a string cell, and otherwise keeps
exactly the rows where both comparisons are true (`NaN` compares false). -/
def remove_invalid_rows (t : Table) : Except String Table :=
  if hasCol t.cols "price" = false then .error (missingColMsg "price")
  else if hasCol t.cols "quantity" = false then .error (missingColMsg "quantity")
  else if colHasText t "price" || colHasText t "quantity" then .error typeErrorMsg
  else .ok { t with rows := t.rows.filter (fun r =>
    valGE0 (getVal t.cols r "price") && valGE0 (getVal t.cols r "quantity")) }

instance : DecidableEq (Except String Table) := fun a b =>
  match a, b with
  | .ok x, .ok y => decidable_of_iff (x = y) (by simp)
  | .error x, .error y => decidable_of_iff (x = y) (by simp)
  | .ok _, .error _ => isFalse (by simp)
  | .error _, .ok _ => isFalse (by simp)

/-- The cell in row `i`, column `j` (missing when out of range). -/
def cell (t : Table) (i j : Nat) : Value :=
  (t.rows.getD i []).getD j Value.missing

/-- The dtype of column `j`. -/
def colDtype (t : Table) (j : Nat) : DType :=
  (t.cols.getD j { name := "", dtype := DType.num }).dtype

/-! ### Concrete sample tables used to instantiate the theorems -/

/-- A numeric sales table exercising every filter case: a fully valid row, a
negative price, a missing price and a missing quantity. -/
def sampleA : Table :=
  { cols := [{ name := "price", dtype := DType.num }, { name := "quantity", dtype := DType.num }],
    rows := [[Value.num 10, Value.num 2], [Value.num (-5), Value.num 3],
      [Value.missing, Value.num 1], [Value.num 4, Value.missing]] }

/-- The rows of `sampleA` surviving `handle_missing_values`. -/
def sampleAComplete : Table :=
  { cols := sampleA.cols,
    rows := [[Value.num 10, Value.num 2], [Value.num (-5), Value.num 3]] }

/-- A table lacking the required `quantity` column. -/
def sampleNoQty : Table :=
  { cols := [{ name := "price", dtype := DType.num }],
    rows := [[Value.num 1]] }

/-- A table whose one row has a string `price` and a missing `quantity`. -/
def sampleText : Table :=
  { cols := [{ name := "price", dtype := DType.obj }, { name := "quantity", dtype := DType.num }],
    rows := [[Value.text "a", Value.missing]] }

/-- A table with an `object` text column next to a numeric one. -/
def sampleTrim : Table :=
  { cols := [{ name := "name", dtype := DType.obj }, { name := "price", dtype := DType.num }],
    rows := [[Value.text "  Shoes ", Value.num 3], [Value.missing, Value.num 1],
      [Value.text "   ", Value.num 2]] }

/-! ### Character-level lemmas -/

theorem char_eq_iff_toNat (c d : Char) : c = d ↔ c.toNat = d.toNat := by
  constructor
  · intro h
    rw [h]
  · intro h
    exact Char.eq_of_val_eq (UInt32.toNat.inj h)

theorem toNat_ofNat_of_small (n : Nat) (h : n < 0xd800) : (Char.ofNat n).toNat = n := by
  have hv : n.isValidChar := Or.inl h
  simp [Char.ofNat, hv, Char.ofNatAux, Char.toNat, UInt32.toNat]

theorem toLower_toNat (c : Char) :
    (c.toLower.toNat = c.toNat ∧ ¬(65 ≤ c.toNat ∧ c.toNat ≤ 90)) ∨
      (c.toLower.toNat = c.toNat + 32 ∧ 65 ≤ c.toNat ∧ c.toNat ≤ 90) := by
  unfold Char.toLower
  by_cases h : c.toNat ≥ 65 ∧ c.toNat ≤ 90
  · right
    refine ⟨?_, h.1, h.2⟩
    rw [if_pos h]
    exact toNat_ofNat_of_small _ (by omega)
  · left
    rw [if_neg h]
    exact ⟨rfl, by omega⟩

theorem toLower_eq_self (c : Char) (h : ¬(65 ≤ c.toNat ∧ c.toNat ≤ 90)) :
    c.toLower = c := by
  unfold Char.toLower
  exact if_neg h

theorem toLower_toLower (c : Char) : c.toLower.toLower = c.toLower := by
  rcases toLower_toNat c with ⟨h1, h2⟩ | ⟨h1, h2, h3⟩
  · exact toLower_eq_self _ (by omega)
  · exact toLower_eq_self _ (by omega)

theorem isPyWs_eq_decide (c : Char) :
    isPyWs c = decide (c.toNat = 32 ∨ c.toNat = 9 ∨ c.toNat = 10 ∨ c.toNat = 13 ∨
      c.toNat = 11 ∨ c.toNat = 12) := by
  have hb : ∀ d : Char, (c == d) = decide (c.toNat = d.toNat) := by
    intro d
    by_cases h : c = d
    · subst h
      simp
    · have h2 : ¬c.toNat = d.toNat := fun hn => h ((char_eq_iff_toNat c d).mpr hn)
      simp [h, h2]
  simp only [isPyWs, hb]
  have e1 : (' ' : Char).toNat = 32 := by decide
  have e2 : ('\t' : Char).toNat = 9 := by decide
  have e3 : ('\n' : Char).toNat = 10 := by decide
  have e4 : ('\r' : Char).toNat = 13 := by decide
  have e5 : ('\x0b' : Char).toNat = 11 := by decide
  have e6 : ('\x0c' : Char).toNat = 12 := by decide
  rw [e1, e2, e3, e4, e5, e6]
  by_cases h1 : c.toNat = 32 <;> by_cases h2 : c.toNat = 9 <;> by_cases h3 : c.toNat = 10 <;>
    by_cases h4 : c.toNat = 13 <;> by_cases h5 : c.toNat = 11 <;> by_cases h6 : c.toNat = 12 <;>
    simp [h1, h2, h3, h4, h5, h6]

theorem isPyWs_toLower (c : Char) : isPyWs c.toLower = isPyWs c := by
  rcases toLower_toNat c with ⟨h1, _⟩ | ⟨h1, h2, h3⟩
  · rw [isPyWs_eq_decide, isPyWs_eq_decide c, h1]
  · rw [isPyWs_eq_decide, isPyWs_eq_decide c, h1]
    have hA : ¬(c.toNat + 32 = 32 ∨ c.toNat + 32 = 9 ∨ c.toNat + 32 = 10 ∨
        c.toNat + 32 = 13 ∨ c.toNat + 32 = 11 ∨ c.toNat + 32 = 12) := by omega
    have hB : ¬(c.toNat = 32 ∨ c.toNat = 9 ∨ c.toNat = 10 ∨ c.toNat = 13 ∨
        c.toNat = 11 ∨ c.toNat = 12) := by omega
    simp [hA, hB]
    omega

theorem normChar_idem (c : Char) : normChar (normChar c) = normChar c := by
  unfold normChar replChar
  by_cases h : c.toLower = ' '
  · rw [if_pos h]
    have h2 : ('_' : Char).toLower = '_' := by decide
    rw [h2]
    decide
  · rw [if_neg h, toLower_toLower, if_neg h]

theorem isPyWs_normChar (c : Char) (h : isPyWs c = false) : isPyWs (normChar c) = false := by
  unfold normChar replChar
  by_cases hc : c.toLower = ' '
  · rw [if_pos hc]
    decide
  · rw [if_neg hc, isPyWs_toLower]
    exact h

/-! ### Lemmas about `pyStripChars` and `normalizeName` -/

theorem dropWhile_head_false {α : Type} (p : α → Bool) :
    ∀ (l : List α) (c : α), (l.dropWhile p).head? = some c → p c = false := by
  intro l
  induction l with
  | nil =>
    intro c h
    simp [List.dropWhile] at h
  | cons hd tl ih =>
    intro c h
    rw [List.dropWhile_cons] at h
    by_cases hp : p hd = true
    · rw [if_pos hp] at h
      exact ih c h
    · rw [if_neg hp] at h
      simp at h
      rw [← h]
      simpa using hp

theorem dropWhile_eq_self_of_head {α : Type} (p : α → Bool) (l : List α)
    (h : ∀ c, l.head? = some c → p c = false) : l.dropWhile p = l := by
  cases l with
  | nil => rfl
  | cons hd tl =>
    rw [List.dropWhile_cons, if_neg]
    simp [h hd rfl]

theorem pyStripChars_head (l : List Char) (c : Char)
    (h : (pyStripChars l).head? = some c) : isPyWs c = false := by
  unfold pyStripChars at h
  rw [List.head?_reverse] at h
  obtain ⟨t, ht⟩ := (List.dropWhile_suffix (l := (l.dropWhile isPyWs).reverse) (p := isPyWs))
  have hm : (l.dropWhile isPyWs).reverse.getLast? = some c := by
    rw [← ht, List.getLast?_append, h]
    rfl
  rw [List.getLast?_reverse] at hm
  exact dropWhile_head_false isPyWs _ c hm

theorem pyStripChars_getLast (l : List Char) (c : Char)
    (h : (pyStripChars l).getLast? = some c) : isPyWs c = false := by
  unfold pyStripChars at h
  rw [List.getLast?_reverse] at h
  exact dropWhile_head_false isPyWs _ c h

theorem pyStripChars_eq_self (l : List Char)
    (h1 : ∀ c, l.head? = some c → isPyWs c = false)
    (h2 : ∀ c, l.getLast? = some c → isPyWs c = false) : pyStripChars l = l := by
  unfold pyStripChars
  rw [dropWhile_eq_self_of_head isPyWs l h1]
  rw [dropWhile_eq_self_of_head isPyWs l.reverse
    (fun c hc => h2 c (by rwa [List.head?_reverse] at hc))]
  exact List.reverse_reverse l

theorem normalizeName_data (s : String) :
    (normalizeName s).data = (pyStripChars s.data).map normChar := by
  simp only [normalizeName, pyReplaceSpace, pyLower, pyStrip, List.map_map]
  rfl

theorem normalizeName_idem (s : String) :
    normalizeName (normalizeName s) = normalizeName s := by
  have hdata : (normalizeName (normalizeName s)).data = (normalizeName s).data := by
    rw [normalizeName_data, normalizeName_data]
    have hfix : pyStripChars ((pyStripChars s.data).map normChar) =
        (pyStripChars s.data).map normChar := by
      apply pyStripChars_eq_self
      · intro c hc
        rw [List.head?_map] at hc
        cases hh : (pyStripChars s.data).head? with
        | none => rw [hh] at hc; simp at hc
        | some c0 =>
          rw [hh] at hc
          simp at hc
          rw [← hc]
          exact isPyWs_normChar c0 (pyStripChars_head s.data c0 hh)
      · intro c hc
        rw [List.getLast?_map] at hc
        cases hh : (pyStripChars s.data).getLast? with
        | none => rw [hh] at hc; simp at hc
        | some c0 =>
          rw [hh] at hc
          simp at hc
          rw [← hc]
          exact isPyWs_normChar c0 (pyStripChars_getLast s.data c0 hh)
    rw [hfix, List.map_map]
    have : normChar ∘ normChar = normChar := funext normChar_idem
    rw [this]
  cases hs : normalizeName (normalizeName s) with
  | mk d1 =>
    cases ht : normalizeName s with
    | mk d2 =>
      have : d1 = d2 := by
        have := hdata
        rw [hs, ht] at this
        exact this
      rw [this]

/-! ### Helper lemmas about the table operations -/

theorem zipWith_eq_left {α β : Type} (f : α → β → α) :
    ∀ (r : List α) (cs : List β), r.length ≤ cs.length →
      (∀ a, ∀ b ∈ cs, f a b = a) → List.zipWith f r cs = r := by
  intro r
  induction r with
  | nil =>
    intro cs _ _
    simp
  | cons a r ih =>
    intro cs hlen hf
    cases cs with
    | nil => simp at hlen
    | cons b cs =>
      simp only [List.zipWith_cons_cons]
      rw [hf a b (by simp), ih cs (by simpa using hlen)
        (fun x y hy => hf x y (by simp [hy]))]

theorem stripCol_dtype_ne_obj (c : Col) :
    ¬(if c.dtype = DType.obj then { c with dtype := DType.str } else c).dtype = DType.obj := by
  by_cases h : c.dtype = DType.obj
  · rw [if_pos h]
    intro hc
    exact DType.noConfusion hc
  · rw [if_neg h]
    exact h

/-! ### The claims -/

/-- C5: `clean_column_names` leaves the row data untouched and maps every
column label through `normalizeName` (strip, then lowercase, then replace
each space with an underscore); the number of columns and their dtypes are
preserved, so no deduplication happens when two labels collapse. -/
theorem c5_clean_column_names_contract (t : Table) :
    (clean_column_names t).rows = t.rows ∧
    (clean_column_names t).cols.map Col.name = (t.cols.map Col.name).map normalizeName ∧
    (clean_column_names t).cols.map Col.dtype = t.cols.map Col.dtype ∧
    (clean_column_names t).cols.length = t.cols.length := by
  refine ⟨rfl, ?_, ?_, by simp [clean_column_names]⟩
  · simp only [clean_column_names, List.map_map]
    rfl
  · simp only [clean_column_names, List.map_map]
    rfl

/-- C6: `clean_column_names` is idempotent: applying it twice gives the same
table (same labels, dtypes and rows) as applying it once. -/
theorem c6_clean_column_names_idempotent (t : Table) :
    clean_column_names (clean_column_names t) = clean_column_names t := by
  have hfun : ((fun c : Col => { c with name := normalizeName c.name }) ∘
      (fun c : Col => { c with name := normalizeName c.name })) =
      (fun c : Col => { c with name := normalizeName c.name }) := by
    funext c
    simp [normalizeName_idem]
  simp [clean_column_names, List.map_map, hfun]

/-- C7: `strip_whitespace_from_strings` is idempotent: trimming an
already-trimmed table changes nothing (the first pass turns every `object`
column into a `string` column, so the second pass selects no column). -/
theorem c7_strip_whitespace_idempotent (t : Table) :
    strip_whitespace_from_strings (strip_whitespace_from_strings t) =
      strip_whitespace_from_strings t := by
  have hcolfun : ((fun c : Col => if c.dtype = DType.obj then { c with dtype := DType.str } else c) ∘
      (fun c : Col => if c.dtype = DType.obj then { c with dtype := DType.str } else c)) =
      (fun c : Col => if c.dtype = DType.obj then { c with dtype := DType.str } else c) := by
    funext c
    by_cases h : c.dtype = DType.obj
    · simp [h]
    · simp [h]
  simp only [strip_whitespace_from_strings, List.map_map, hcolfun, Table.mk.injEq,
    true_and, and_true, eq_self_iff_true]
  apply List.map_congr_left
  intro r _
  simp only [Function.comp]
  apply zipWith_eq_left
  · rw [List.length_zipWith, List.length_map]
    exact Nat.le_trans (Nat.min_le_right _ _) (Nat.le_refl _)
  · intro a b hb
    rcases List.mem_map.mp hb with ⟨c, _, hc⟩
    rw [← hc, if_neg (stripCol_dtype_ne_obj c)]

theorem notNA_eq_true_iff (v : Value) : notNA v = true ↔ v ≠ Value.missing := by
  cases v <;> simp [notNA]

theorem valGE0_eq_true_iff (v : Value) :
    valGE0 v = true ↔ ∃ q, v = Value.num q ∧ 0 ≤ q := by
  cases v with
  | text s => simp [valGE0]
  | num q => simp [valGE0]
  | missing => simp [valGE0]

theorem handle_missing_values_ok (t t' : Table) (h : handle_missing_values t = .ok t') :
    t' = { t with rows := t.rows.filter (fun r =>
      notNA (getVal t.cols r "price") && notNA (getVal t.cols r "quantity")) } := by
  unfold handle_missing_values at h
  by_cases h1 : hasCol t.cols "price" = false
  · rw [if_pos h1] at h
    cases h
  · rw [if_neg h1] at h
    by_cases h2 : hasCol t.cols "quantity" = false
    · rw [if_pos h2] at h
      cases h
    · rw [if_neg h2] at h
      simp only [Except.ok.injEq] at h
      exact h.symm

theorem remove_invalid_rows_ok (t t' : Table) (h : remove_invalid_rows t = .ok t') :
    t' = { t with rows := t.rows.filter (fun r =>
      valGE0 (getVal t.cols r "price") && valGE0 (getVal t.cols r "quantity")) } := by
  unfold remove_invalid_rows at h
  by_cases h1 : hasCol t.cols "price" = false
  · rw [if_pos h1] at h
    cases h
  · rw [if_neg h1] at h
    by_cases h2 : hasCol t.cols "quantity" = false
    · rw [if_pos h2] at h
      cases h
    · rw [if_neg h2] at h
      by_cases h3 : (colHasText t "price" || colHasText t "quantity") = true
      · rw [if_pos h3] at h
        cases h
      · rw [if_neg h3] at h
        simp only [Except.ok.injEq] at h
        exact h.symm

/-- C1: when the Validity Filter succeeds, every surviving row has a
non-negative numeric `price` and `quantity`, and every input row whose
`price` or `quantity` is a negative number is absent from the output. -/
theorem c1_remove_invalid_rows_nonneg (t t' : Table)
    (h : remove_invalid_rows t = .ok t') :
    (∀ r ∈ t'.rows, (∃ q, getVal t'.cols r "price" = Value.num q ∧ 0 ≤ q) ∧
      (∃ q, getVal t'.cols r "quantity" = Value.num q ∧ 0 ≤ q)) ∧
    (∀ r ∈ t.rows, ((∃ q, getVal t.cols r "price" = Value.num q ∧ q < 0) ∨
      (∃ q, getVal t.cols r "quantity" = Value.num q ∧ q < 0)) → r ∉ t'.rows) := by
  have ht := remove_invalid_rows_ok t t' h
  subst ht
  constructor
  · intro r hr
    have hp := (List.mem_filter.mp hr).2
    simp only [Bool.and_eq_true] at hp
    exact ⟨(valGE0_eq_true_iff _).mp hp.1, (valGE0_eq_true_iff _).mp hp.2⟩
  · intro r _ hneg hr
    have hp := (List.mem_filter.mp hr).2
    simp only [Bool.and_eq_true] at hp
    rcases hneg with ⟨q, hq, hlt⟩ | ⟨q, hq, hlt⟩
    · rcases (valGE0_eq_true_iff _).mp hp.1 with ⟨q2, hq2, hle⟩
      rw [hq] at hq2
      cases hq2
      exact absurd hle (by simpa using hlt)
    · rcases (valGE0_eq_true_iff _).mp hp.2 with ⟨q2, hq2, hle⟩
      rw [hq] at hq2
      cases hq2
      exact absurd hle (by simpa using hlt)

/-- C1 witness: instantiated on `sampleA`, whose valid row survives and whose
negative-price row is dropped. -/
theorem c1_remove_invalid_rows_nonneg_witness :
    (∀ r ∈ (Table.mk sampleA.cols [[Value.num 10, Value.num 2]]).rows,
      (∃ q, getVal (Table.mk sampleA.cols [[Value.num 10, Value.num 2]]).cols r "price" =
        Value.num q ∧ 0 ≤ q) ∧
      (∃ q, getVal (Table.mk sampleA.cols [[Value.num 10, Value.num 2]]).cols r "quantity" =
        Value.num q ∧ 0 ≤ q)) ∧
    (∀ r ∈ sampleA.rows, ((∃ q, getVal sampleA.cols r "price" = Value.num q ∧ q < 0) ∨
      (∃ q, getVal sampleA.cols r "quantity" = Value.num q ∧ q < 0)) →
      r ∉ (Table.mk sampleA.cols [[Value.num 10, Value.num 2]]).rows) :=
  c1_remove_invalid_rows_nonneg sampleA (Table.mk sampleA.cols [[Value.num 10, Value.num 2]])
    (by decide)

/-- C2: when the Validity Filter succeeds, any input row with a missing
`price` or `quantity` is excluded from its output, regardless of whether the
Required-Value Filter ran first. -/
theorem c2_missing_fails_validity (t t' : Table)
    (h : remove_invalid_rows t = .ok t') (r : List Value) (_hr : r ∈ t.rows)
    (hm : getVal t.cols r "price" = Value.missing ∨
      getVal t.cols r "quantity" = Value.missing) :
    r ∉ t'.rows := by
  have ht := remove_invalid_rows_ok t t' h
  subst ht
  intro hmem
  have hp := (List.mem_filter.mp hmem).2
  simp only [Bool.and_eq_true] at hp
  rcases hm with hm | hm
  · rcases (valGE0_eq_true_iff _).mp hp.1 with ⟨q, hq, _⟩
    rw [hm] at hq
    cases hq
  · rcases (valGE0_eq_true_iff _).mp hp.2 with ⟨q, hq, _⟩
    rw [hm] at hq
    cases hq

/-- C2 witness: the missing-price row of `sampleA` is dropped by the Validity
Filter even though `handle_missing_values` never ran. -/
theorem c2_missing_fails_validity_witness :
    [Value.missing, Value.num 1] ∉ (Table.mk sampleA.cols [[Value.num 10, Value.num 2]]).rows :=
  c2_missing_fails_validity sampleA (Table.mk sampleA.cols [[Value.num 10, Value.num 2]])
    (by decide) [Value.missing, Value.num 1] (by decide) (Or.inl (by decide))

/-- C3: when the Required-Value Filter succeeds it is a stable filter: the
columns are untouched, the output rows are a sublist of the input rows (no
reordering, alteration or addition), and a row is in the output exactly when
it is an input row whose `price` and `quantity` are both non-missing. -/
theorem c3_handle_missing_values_stable_filter (t t' : Table)
    (h : handle_missing_values t = .ok t') :
    t'.cols = t.cols ∧ t'.rows.Sublist t.rows ∧
    (∀ r, r ∈ t'.rows ↔ (r ∈ t.rows ∧ getVal t.cols r "price" ≠ Value.missing ∧
      getVal t.cols r "quantity" ≠ Value.missing)) := by
  have ht := handle_missing_values_ok t t' h
  subst ht
  refine ⟨rfl, List.filter_sublist t.rows, ?_⟩
  intro r
  rw [List.mem_filter]
  constructor
  · intro hmem
    have hp := hmem.2
    simp only [Bool.and_eq_true] at hp
    exact ⟨hmem.1, (notNA_eq_true_iff _).mp hp.1, (notNA_eq_true_iff _).mp hp.2⟩
  · intro hmem
    refine ⟨hmem.1, ?_⟩
    simp only [Bool.and_eq_true]
    exact ⟨(notNA_eq_true_iff _).mpr hmem.2.1, (notNA_eq_true_iff _).mpr hmem.2.2⟩

/-- C3 witness: instantiated on `sampleA`; the complete rows survive in order
and the missing-quantity row is gone. -/
theorem c3_handle_missing_values_stable_filter_witness :
    sampleAComplete.cols = sampleA.cols ∧
    sampleAComplete.rows.Sublist sampleA.rows ∧
    ([Value.num 4, Value.missing] ∈ sampleAComplete.rows ↔
      ([Value.num 4, Value.missing] ∈ sampleA.rows ∧
        getVal sampleA.cols [Value.num 4, Value.missing] "price" ≠ Value.missing ∧
        getVal sampleA.cols [Value.num 4, Value.missing] "quantity" ≠ Value.missing)) := by
  have h := c3_handle_missing_values_stable_filter sampleA sampleAComplete (by decide)
  exact ⟨h.1, h.2.1, h.2.2 [Value.num 4, Value.missing]⟩

/-- C4: if `price` or `quantity` is absent, both filters fail with the same
`KeyError` message and return no table (the input value, being immutable in
the model, is untouched). -/
theorem c4_missing_column_error (t : Table)
    (h : hasCol t.cols "price" = false ∨ hasCol t.cols "quantity" = false) :
    ∃ m, handle_missing_values t = .error m ∧ remove_invalid_rows t = .error m := by
  unfold handle_missing_values remove_invalid_rows
  by_cases h1 : hasCol t.cols "price" = false
  · rw [if_pos h1, if_pos h1]
    exact ⟨missingColMsg "price", rfl, rfl⟩
  · have h2 : hasCol t.cols "quantity" = false := h.resolve_left h1
    rw [if_neg h1, if_neg h1, if_pos h2, if_pos h2]
    exact ⟨missingColMsg "quantity", rfl, rfl⟩

/-- C4 witness: a table without a `quantity` column makes both filters raise
the same missing-column `KeyError`. -/
theorem c4_missing_column_error_witness :
    ∃ m, handle_missing_values sampleNoQty = .error m ∧
      remove_invalid_rows sampleNoQty = .error m :=
  c4_missing_column_error sampleNoQty (by decide)

theorem dropWhile_eq_nil_of_all {α : Type} (p : α → Bool) (l : List α)
    (h : ∀ c ∈ l, p c = true) : l.dropWhile p = [] := by
  induction l with
  | nil => rfl
  | cons hd tl ih =>
    rw [List.dropWhile_cons, if_pos (h hd (by simp))]
    exact ih (fun c hc => h c (by simp [hc]))

theorem pyStrip_all_ws (s : String) (h : ∀ c ∈ s.data, isPyWs c = true) :
    pyStrip s = "" := by
  unfold pyStrip pyStripChars
  rw [dropWhile_eq_nil_of_all isPyWs s.data h]
  rfl

theorem cell_strip_eq (t : Table) (i j : Nat) (hj : j < t.cols.length) :
    cell (strip_whitespace_from_strings t) i j =
      if colDtype t j = DType.obj then stripVal (cell t i j) else cell t i j := by
  unfold cell colDtype strip_whitespace_from_strings
  simp only [List.getD_eq_getElem?_getD, List.getElem?_map, List.getElem?_eq_getElem hj,
    Option.getD_some]
  cases hri : t.rows[i]? with
  | none =>
    simp only [hri, Option.map_none', Option.getD_none]
    have hnil : (([] : List Value))[j]?.getD Value.missing = Value.missing := by
      cases j <;> rfl
    rw [hnil]
    split <;> rfl
  | some r =>
    simp only [hri, Option.map_some', Option.getD_some, List.getElem?_zipWith,
      List.getElem?_eq_getElem hj]
    cases hrj : r[j]? with
    | none =>
      simp only [hrj, Option.getD_none]
      split <;> rfl
    | some v =>
      simp only [hrj, Option.getD_some]

/-- C8: `strip_whitespace_from_strings` preserves the number of rows; inside
an `object` (text) column a string cell becomes its stripped form and a
missing cell stays missing; a cell of a non-`object` column is unchanged;
and a string of pure whitespace strips to the empty string, which is not the
missing value. -/
theorem c8_text_trimmer_values (t : Table) (i j : Nat) (hj : j < t.cols.length) :
    (strip_whitespace_from_strings t).rows.length = t.rows.length ∧
    (colDtype t j = DType.obj →
      (∀ s, cell t i j = Value.text s →
        cell (strip_whitespace_from_strings t) i j = Value.text (pyStrip s)) ∧
      (cell t i j = Value.missing →
        cell (strip_whitespace_from_strings t) i j = Value.missing)) ∧
    (¬colDtype t j = DType.obj →
      cell (strip_whitespace_from_strings t) i j = cell t i j) ∧
    (∀ s : String, (∀ c ∈ s.data, isPyWs c = true) →
      pyStrip s = "" ∧ Value.text (pyStrip s) ≠ Value.missing) := by
  refine ⟨List.length_map _ _, ?_, ?_, ?_⟩
  · intro hobj
    constructor
    · intro s hs
      rw [cell_strip_eq t i j hj, if_pos hobj, hs]
      rfl
    · intro hs
      rw [cell_strip_eq t i j hj, if_pos hobj, hs]
      rfl
  · intro hobj
    rw [cell_strip_eq t i j hj, if_neg hobj]
  · intro s hs
    exact ⟨pyStrip_all_ws s hs, fun hc => Value.noConfusion hc⟩

/-- C8 witness: on `sampleTrim`, the padded product name is trimmed, the
numeric cell next to it is untouched, and the all-whitespace name becomes
the empty string. -/
theorem c8_text_trimmer_values_witness :
    cell (strip_whitespace_from_strings sampleTrim) 0 0 = Value.text (pyStrip "  Shoes ") ∧
    cell (strip_whitespace_from_strings sampleTrim) 0 1 = cell sampleTrim 0 1 ∧
    pyStrip "   " = "" :=
  ⟨((c8_text_trimmer_values sampleTrim 0 0 (by decide)).2.1 (by decide)).1
      "  Shoes " (by decide),
    (c8_text_trimmer_values sampleTrim 0 1 (by decide)).2.2.1 (by decide),
    ((c8_text_trimmer_values sampleTrim 0 0 (by decide)).2.2.2 "   " (by decide)).1⟩

theorem valGE0_imp_notNA (v : Value) (h : valGE0 v = true) : notNA v = true := by
  cases v with
  | text s => cases h
  | num q => rfl
  | missing => cases h

theorem colHasText_filter_false (t : Table) (p : List Value → Bool) (nm : String)
    (h : colHasText t nm = false) :
    colHasText { t with rows := t.rows.filter p } nm = false := by
  unfold colHasText at h ⊢
  rw [List.any_filter, List.any_eq_false]
  rw [List.any_eq_false] at h
  intro x hx
  have hq := h x hx
  simp only [Bool.and_eq_true, not_and]
  intro _
  exact hq

/-- C10 counterexample: on the table whose single row has a string `price`
and a missing `quantity`, running the Validity Filter after the
Required-Value Filter yields an empty table, while the Validity Filter alone
raises `TypeError` (the string cell is compared with `0`); so the two
pipelines differ. -/
theorem c10_counterexample_text_row :
    (handle_missing_values sampleText).bind remove_invalid_rows ≠
      remove_invalid_rows sampleText := by decide

/-- C10 amended: for tables that have the `price` and `quantity` columns and
hold no string cell in them (so the non-negativity comparison is defined),
the Validity Filter subsumes the Required-Value Filter: applying it after
`handle_missing_values` equals applying it alone. -/
theorem c10_validity_subsumes_required (t : Table)
    (hp : hasCol t.cols "price" = true) (hq : hasCol t.cols "quantity" = true)
    (htp : colHasText t "price" = false) (htq : colHasText t "quantity" = false) :
    (handle_missing_values t).bind remove_invalid_rows = remove_invalid_rows t := by
  have hp' : ¬hasCol t.cols "price" = false := by simp [hp]
  have hq' : ¬hasCol t.cols "quantity" = false := by simp [hq]
  unfold handle_missing_values
  rw [if_neg hp', if_neg hq']
  show remove_invalid_rows _ = remove_invalid_rows t
  unfold remove_invalid_rows
  rw [if_neg hp', if_neg hp', if_neg hq', if_neg hq']
  have htp1 := colHasText_filter_false t (fun r =>
    notNA (getVal t.cols r "price") && notNA (getVal t.cols r "quantity")) "price" htp
  have htq1 := colHasText_filter_false t (fun r =>
    notNA (getVal t.cols r "price") && notNA (getVal t.cols r "quantity")) "quantity" htq
  rw [if_neg (by simp [htp1, htq1]), if_neg (by simp [htp, htq])]
  simp only [Except.ok.injEq, Table.mk.injEq, true_and]
  rw [List.filter_filter]
  apply List.filter_congr
  intro r _
  by_cases h2 : (valGE0 (getVal t.cols r "price") && valGE0 (getVal t.cols r "quantity")) = true
  · simp only [Bool.and_eq_true] at h2
    simp [h2.1, h2.2, valGE0_imp_notNA _ h2.1, valGE0_imp_notNA _ h2.2]
  · simp only [Bool.and_eq_true, not_and] at h2
    cases hv1 : valGE0 (getVal t.cols r "price") with
    | false => simp [hv1]
    | true =>
      cases hv2 : valGE0 (getVal t.cols r "quantity") with
      | false => simp [hv1, hv2]
      | true => exact absurd hv2 (by simpa [hv1] using h2)

/-- C10 amended witness: on the all-numeric `sampleA` the two pipelines
produce the same result. -/
theorem c10_validity_subsumes_required_witness :
    (handle_missing_values sampleA).bind remove_invalid_rows =
      remove_invalid_rows sampleA :=
  c10_validity_subsumes_required sampleA (by decide) (by decide) (by decide) (by decide)

end DataCleaning
